import Mathlib

/-!
Verification of the libdns Linode provider adapter (src/client.go).

The development shallowly embeds the record-translation and record-CRUD
logic of the adapter.  Go strings are embedded as lists of characters,
Go integer types as Nat or Int with explicit reduction modulo powers of
two where the code performs narrowing conversions, and fallible code as
Option or Except values.  Remote calls made through the linodego client
are embedded as oracle functions passed explicitly to each operation, so
that a theorem can state that a result does not depend on a given remote
endpoint (the operation issues no such call) or that it equals a value
built from the oracle response (the call result is passed through).

External collaborators that are not part of src/ (the libdns helper
functions and record methods, the netip address routines and the strconv
routines of the Go standard library) are modelled from the spec; each
such definition carries a doc comment starting with the words
Modelled from the spec.
-/

/-- A Go string value, embedded as its list of characters. -/
abbrev GoStr := List Char

/-- Nanoseconds per second: Go durations count nanoseconds and the code
converts TTL durations to whole seconds. -/
def nsPerSec : Nat := 1000000000

/-- Whitespace test used by strings.Fields via unicode.IsSpace, embedded
for the Latin-1 range (space, tab, newline, vertical tab, form feed,
carriage return, next line, no-break space). -/
def isGoSpace (c : Char) : Bool :=
  c.toNat = 32 || c.toNat = 9 || c.toNat = 10 || c.toNat = 11 ||
  c.toNat = 12 || c.toNat = 13 || c.toNat = 133 || c.toNat = 160

/-- Split a string at the first occurrence of a separator character,
returning the parts before and after it, or none when absent. -/
def splitFirst : GoStr → Char → Option (GoStr × GoStr)
  | [], _ => none
  | c :: cs, sep =>
    if c = sep then some ([], cs)
    else
      match splitFirst cs sep with
      | none => none
      | some p => some (c :: p.1, p.2)

/-- strings.SplitN with a single-character separator (the only shape the
code uses).  The first argument is the count n of Go SplitN(s, sep, n). -/
def goSplitN : Nat → GoStr → Char → List GoStr
  | 0, _, _ => []
  | 1, s, _ => [s]
  | n + 2, s, sep =>
    match splitFirst s sep with
    | none => [s]
    | some p => p.1 :: goSplitN (n + 1) p.2 sep

/-- Accumulator loop behind splitFull. -/
def splitFullAux : GoStr → Char → GoStr → List GoStr
  | [], _, acc => [acc.reverse]
  | c :: cs, sep, acc =>
    if c = sep then acc.reverse :: splitFullAux cs sep []
    else splitFullAux cs sep (c :: acc)

/-- Unbounded split at every occurrence of a separator character
(strings.Split with a single-character separator). -/
def splitFull (s : GoStr) (sep : Char) : List GoStr :=
  splitFullAux s sep []

/-- Accumulator loop behind goFields. -/
def fieldsAux : GoStr → GoStr → List GoStr
  | [], acc => if acc.isEmpty then [] else [acc.reverse]
  | c :: cs, acc =>
    if isGoSpace c then
      if acc.isEmpty then fieldsAux cs [] else acc.reverse :: fieldsAux cs []
    else fieldsAux cs (c :: acc)

/-- strings.Fields: split around runs of whitespace, dropping empties. -/
def goFields (s : GoStr) : List GoStr :=
  fieldsAux s []

/-- strings.HasPrefix, embedded by direct recursion. -/
def goHasPre : GoStr → GoStr → Bool
  | _, [] => true
  | [], _ :: _ => false
  | c :: cs, p :: ps => decide (c = p) && goHasPre cs ps

/-- strings.TrimPrefix: drop the given leading string when present. -/
def goTrimPre (s pre : GoStr) : GoStr :=
  if goHasPre s pre then s.drop pre.length else s

/-- strings.HasSuffix. -/
def goHasSuf (s suf : GoStr) : Bool :=
  goHasPre s.reverse suf.reverse

/-- strings.TrimSuffix: drop the given trailing string when present. -/
def trimSuffix (s suf : GoStr) : GoStr :=
  if goHasSuf s suf then s.take (s.length - suf.length) else s

/-- strings.ToUpper, embedded for ASCII (record type names are ASCII). -/
def upperStr (s : GoStr) : GoStr :=
  s.map Char.toUpper

/-- strings.Contains for a single character. -/
def strContains (s : GoStr) (c : Char) : Bool :=
  s.any (fun x => decide (x = c))

/-- Character for a digit value below 16 (lowercase for hex). -/
def digitChar : Nat → Char
  | 0 => '0' | 1 => '1' | 2 => '2' | 3 => '3' | 4 => '4'
  | 5 => '5' | 6 => '6' | 7 => '7' | 8 => '8' | 9 => '9'
  | 10 => 'a' | 11 => 'b' | 12 => 'c' | 13 => 'd' | 14 => 'e'
  | _ => 'f'

/-- Value of a digit character in a given base (digits and lowercase
hex letters), or none when the character is not a digit of that base. -/
def digitVal? (b : Nat) (c : Char) : Option Nat :=
  let v : Option Nat :=
    if 48 ≤ c.toNat ∧ c.toNat ≤ 57 then some (c.toNat - 48)
    else if 97 ≤ c.toNat ∧ c.toNat ≤ 102 then some (c.toNat - 87)
    else none
  match v with
  | some d => if d < b then some d else none
  | none => none

/-- Little-endian digits of n in base b, with explicit fuel so that the
definition is structurally recursive and reduces inside the kernel. -/
def toDigitsAux (b : Nat) : Nat → Nat → List Nat
  | 0, _ => []
  | fuel + 1, n => if n = 0 then [] else n % b :: toDigitsAux b fuel (n / b)

/-- Little-endian digits of n in base b (fuel n is always enough). -/
def natDigits (b n : Nat) : List Nat :=
  toDigitsAux b n n

/-- Value of a little-endian digit list in base b. -/
def ofDigitsNat (b : Nat) : List Nat → Nat
  | [] => 0
  | d :: ds => d + b * ofDigitsNat b ds

/-- Map a fallible function over a list, failing when any element fails. -/
def mapOpt {α β : Type} (f : α → Option β) : List α → Option (List β)
  | [] => some []
  | a :: as =>
    match f a, mapOpt f as with
    | some b, some bs => some (b :: bs)
    | _, _ => none

/-- Render n in base b, most significant digit first. -/
def renderNat (b n : Nat) : GoStr :=
  if n = 0 then ['0'] else ((natDigits b n).map digitChar).reverse

/-- Parse a nonempty all-digit string in base b. -/
def parseNatBase (b : Nat) (s : GoStr) : Option Nat :=
  if s.isEmpty then none
  else
    match mapOpt (digitVal? b) s with
    | some ds => some (ofDigitsNat b ds.reverse)
    | none => none

/-- strconv.Itoa restricted to the natural numbers the code feeds it. -/
def natToStr (n : Nat) : GoStr :=
  renderNat 10 n

/-- Kind of a strconv numeric parse failure. -/
inductive AtoiKind
  | synErr
  | rangeErr
deriving DecidableEq

/-- Errors surfaced by the embedded operations.  The first two carry the
fixed fmt.Errorf messages of deleteDomainRecord; numErr embeds a
strconv.NumError with the offending input; remote stands for an error
returned by a remote endpoint, carried abstractly by a tag. -/
inductive GoErr
  | missingProviderData
  | missingId
  | numErr (kind : AtoiKind) (input : GoStr)
  | remote (tag : Nat)
deriving DecidableEq

/-- Modelled from the spec: strconv.Atoi, the numeric parse of the
stored identifier string (optional single sign, decimal digits, error
outside the signed 64-bit range of the Go int type). -/
def atoi (s : GoStr) : Except GoErr Int :=
  match s with
  | [] => .error (.numErr .synErr s)
  | c :: rest =>
    let neg : Bool := decide (c = '-')
    let digs := if c = '-' ∨ c = '+' then rest else c :: rest
    match parseNatBase 10 digs with
    | none => .error (.numErr .synErr s)
    | some n =>
      let v : Int := if neg then -(n : Int) else (n : Int)
      if v < -9223372036854775808 ∨ 9223372036854775807 < v then
        .error (.numErr .rangeErr s)
      else .ok v

/-- The Go conversion uint16(v) for v of type int: the value reduced
modulo 2 to the 16, as a natural number. -/
def toUint16 (v : Int) : Nat :=
  (v % 65536).toNat

/-- The Go conversion uint8(v) for v of type int: the value reduced
modulo 2 to the 8, as a natural number. -/
def toUint8 (v : Int) : Nat :=
  (v % 256).toNat

/-- Modelled from the spec: a netip.Addr value, either four IPv4 bytes
or eight IPv6 groups. -/
inductive IPAddr
  | v4 (a b c d : Nat)
  | v6 (g0 g1 g2 g3 g4 g5 g6 g7 : Nat)
deriving DecidableEq

/-- Whether the address is an IPv4 address. -/
def IPAddr.isV4 : IPAddr → Bool
  | .v4 _ _ _ _ => true
  | .v6 _ _ _ _ _ _ _ _ => false

/-- Component bounds making an IPAddr a well-formed address value. -/
def validIP : IPAddr → Bool
  | .v4 a b c d =>
    decide (a < 256) && decide (b < 256) && decide (c < 256) && decide (d < 256)
  | .v6 g0 g1 g2 g3 g4 g5 g6 g7 =>
    decide (g0 < 65536) && decide (g1 < 65536) && decide (g2 < 65536) &&
    decide (g3 < 65536) && decide (g4 < 65536) && decide (g5 < 65536) &&
    decide (g6 < 65536) && decide (g7 < 65536)

/-- Modelled from the spec: the textual rendering of an address
(dotted decimal for IPv4, eight colon-separated lowercase hex groups
for IPv6). -/
def renderIP : IPAddr → GoStr
  | .v4 a b c d =>
    natToStr a ++ ('.' :: (natToStr b ++ ('.' :: (natToStr c ++ ('.' :: natToStr d)))))
  | .v6 g0 g1 g2 g3 g4 g5 g6 g7 =>
    renderNat 16 g0 ++ (':' :: (renderNat 16 g1 ++ (':' :: (renderNat 16 g2 ++
      (':' :: (renderNat 16 g3 ++ (':' :: (renderNat 16 g4 ++ (':' :: (renderNat 16 g5 ++
      (':' :: (renderNat 16 g6 ++ (':' :: renderNat 16 g7)))))))))))))

/-- A dotted-decimal IPv4 component: decimal value below 256. -/
def parseV4Part (p : GoStr) : Option Nat :=
  match parseNatBase 10 p with
  | some n => if n < 256 then some n else none
  | none => none

/-- An IPv6 group: hex value below 65536. -/
def parseV6Group (p : GoStr) : Option Nat :=
  match parseNatBase 16 p with
  | some n => if n < 65536 then some n else none
  | none => none

/-- Modelled from the spec: netip.ParseAddr, the IP literal parse used
when decoding A and AAAA records; a string containing a colon is read
as an IPv6 literal, otherwise as dotted-decimal IPv4, and anything else
fails. -/
def parseAddr (s : GoStr) : Option IPAddr :=
  if strContains s ':' then
    match mapOpt parseV6Group (splitFull s ':') with
    | some [g0, g1, g2, g3, g4, g5, g6, g7] => some (.v6 g0 g1 g2 g3 g4 g5 g6 g7)
    | _ => none
  else
    match mapOpt parseV4Part (splitFull s '.') with
    | some [a, b, c, d] => some (.v4 a b c d)
    | _ => none

/-- A value stored in the provider data bag.  The Go bag maps strings to
interface values; the code only ever stores strings, but a caller may
store anything, which the str / nonString split captures. -/
inductive GoVal
  | str (s : GoStr)
  | nonString
deriving DecidableEq

/-- The provider data bag: a string-keyed association map. -/
abbrev ProviderMap := List (GoStr × GoVal)

/-- The ProviderData field of a record: none embeds both a nil interface
value and a value that is not a string-keyed map (getProviderData
rejects both identically). -/
abbrev ProviderData := Option ProviderMap

/-- Go map lookup on the provider data bag. -/
def lookupPD (m : ProviderMap) (k : GoStr) : Option GoVal :=
  match m.find? (fun e => decide (e.1 = k)) with
  | some e => some e.2
  | none => none

/-- The key under which the adapter stores the provider record ID. -/
def idKey : GoStr := "id".toList

/-- libdns.Address record fields used by the code. -/
structure AddressRec where
  name : GoStr
  ttl : Nat
  ip : IPAddr
  providerData : ProviderData
deriving DecidableEq

/-- libdns.TXT record fields used by the code. -/
structure TXTRec where
  name : GoStr
  ttl : Nat
  text : GoStr
  providerData : ProviderData
deriving DecidableEq

/-- libdns.CNAME record fields used by the code. -/
structure CNAMERec where
  name : GoStr
  ttl : Nat
  target : GoStr
  providerData : ProviderData
deriving DecidableEq

/-- libdns.MX record fields used by the code. -/
structure MXRec where
  name : GoStr
  ttl : Nat
  preference : Nat
  target : GoStr
  providerData : ProviderData
deriving DecidableEq

/-- libdns.SRV record fields used by the code. -/
structure SRVRec where
  service : GoStr
  transport : GoStr
  name : GoStr
  ttl : Nat
  priority : Nat
  weight : Nat
  port : Nat
  target : GoStr
  providerData : ProviderData
deriving DecidableEq

/-- libdns.NS record fields used by the code. -/
structure NSRec where
  name : GoStr
  ttl : Nat
  target : GoStr
  providerData : ProviderData
deriving DecidableEq

/-- libdns.CAA record fields used by the code. -/
structure CAARec where
  name : GoStr
  ttl : Nat
  flags : Nat
  tag : GoStr
  value : GoStr
  providerData : ProviderData
deriving DecidableEq

/-- libdns.RR, the generic record: raw type and data strings and no
provider data field. -/
structure RRRec where
  name : GoStr
  ttl : Nat
  type : GoStr
  data : GoStr
deriving DecidableEq

/-- A libdns.Record value: one of the concrete record kinds. -/
inductive Record
  | address (r : AddressRec)
  | txt (r : TXTRec)
  | cname (r : CNAMERec)
  | mx (r : MXRec)
  | srv (r : SRVRec)
  | ns (r : NSRec)
  | caa (r : CAARec)
  | rr (r : RRRec)
deriving DecidableEq

/-- Whether a record is the generic fallback kind. -/
def isGeneric : Record → Bool
  | .rr _ => true
  | _ => false

/-- Modelled from the spec: the generic-record view record.RR() of the
libdns record kinds, recomposing the composite data string per kind
(MX as preference then target, SRV as priority weight port target with
the record name sent as-is, CAA as flags tag value) and passing the
name, TTL and type through. -/
def Record.RR : Record → RRRec
  | .address a =>
    ⟨a.name, a.ttl, if a.ip.isV4 then "A".toList else "AAAA".toList, renderIP a.ip⟩
  | .txt t => ⟨t.name, t.ttl, "TXT".toList, t.text⟩
  | .cname c => ⟨c.name, c.ttl, "CNAME".toList, c.target⟩
  | .mx m => ⟨m.name, m.ttl, "MX".toList, natToStr m.preference ++ (' ' :: m.target)⟩
  | .srv s =>
    ⟨s.name, s.ttl, "SRV".toList,
      natToStr s.priority ++ (' ' :: (natToStr s.weight ++ (' ' :: (natToStr s.port ++
        (' ' :: s.target)))))⟩
  | .ns n => ⟨n.name, n.ttl, "NS".toList, n.target⟩
  | .caa c =>
    ⟨c.name, c.ttl, "CAA".toList,
      natToStr c.flags ++ (' ' :: (c.tag ++ (' ' :: c.value)))⟩
  | .rr r => r

/-- getProviderData of src/client.go: the provider data bag of a record
when the record kind carries one holding a string-keyed map, none
otherwise (the generic RR kind has no such field and no case in the
source switch). -/
def getProviderData : Record → Option ProviderMap
  | .address r => r.providerData
  | .txt r => r.providerData
  | .cname r => r.providerData
  | .mx r => r.providerData
  | .srv r => r.providerData
  | .ns r => r.providerData
  | .caa r => r.providerData
  | .rr _ => none

/-- A linodego.DomainRecord, restricted to the fields the code reads. -/
structure DomainRecord where
  id : Nat
  type : GoStr
  name : GoStr
  target : GoStr
  ttlSec : Nat
deriving DecidableEq

/-- The linodego create and update option payloads, restricted to the
fields the code sets (both Go structs carry the same four fields). -/
structure RecordOpts where
  type : GoStr
  name : GoStr
  target : GoStr
  ttlSec : Nat
deriving DecidableEq

/-- Modelled from the spec: libdns.RelativeName, rendering a record name
relative to the zone by stripping a trailing zone suffix and a trailing
dot; a name already relative is unchanged. -/
def relativeName (name zone : GoStr) : GoStr :=
  trimSuffix (trimSuffix name zone) ['.']

/-- Result of an embedded Go function that may return a value, return an
error, or panic (the unchecked type assertion id.(string) panics on a
non-string value instead of returning an error). -/
inductive Outcome (α : Type)
  | ok (a : α)
  | err (e : GoErr)
  | panicked
deriving DecidableEq

/-- Lift a remote call result into an outcome (a remote call returns a
value or an error; it does not panic). -/
def liftRemote {α : Type} : Except GoErr α → Outcome α
  | .ok a => .ok a
  | .error e => .err e

/-- Whether an outcome is a panic. -/
def isPanicked {α : Type} : Outcome α → Bool
  | .panicked => true
  | _ => false

/-- Whether an Except value is an error. -/
def exceptErr {α : Type} : Except GoErr α → Bool
  | .error _ => true
  | .ok _ => false

/-- The remote CreateDomainRecord endpoint, as an oracle from the domain
ID and the submitted options to the created wire record or an error. -/
abbrev RemoteCreate := Nat → RecordOpts → Except GoErr DomainRecord

/-- The remote UpdateDomainRecord endpoint, as an oracle from the domain
ID, the record ID and the submitted options to the updated wire record
or an error. -/
abbrev RemoteUpdate := Nat → Int → RecordOpts → Except GoErr DomainRecord

/-- The remote DeleteDomainRecord endpoint, as an oracle from the domain
ID and the record ID to success or an error. -/
abbrev RemoteDelete := Nat → Int → Except GoErr Unit

/-- The service and transport extraction block of convertToLibdnsRecord
(src/client.go lines 193 to 207): when the zone-relative name starts
with an underscore, split it into at most three dot-separated parts;
with at least two parts, the first two minus a leading underscore become
service and transport and the third part (or the empty string) becomes
the residual name; otherwise everything is unchanged.  Returns
(service, transport, residual name). -/
def srvNameSplit (name : GoStr) : GoStr × GoStr × GoStr :=
  if goHasPre name ['_'] then
    match goSplitN 3 name '.' with
    | [n0, n1] => (goTrimPre n0 ['_'], goTrimPre n1 ['_'], ([] : GoStr))
    | [n0, n1, n2] => (goTrimPre n0 ['_'], goTrimPre n1 ['_'], n2)
    | _ => (([] : GoStr), ([] : GoStr), name)
  else (([] : GoStr), ([] : GoStr), name)

/-- convertToLibdnsRecord of src/client.go: translate a wire record into
a typed libdns record, dispatching on the uppercased wire type, parsing
the composite data fields of MX, SRV and CAA records, splitting service
and transport out of an SRV name starting with an underscore, and
falling back to the generic RR kind (with no provider data) when the
type is unrecognized or the data malformed. -/
def convertToLibdnsRecord (zone : GoStr) (w : DomainRecord) : Record :=
  let name := relativeName w.name zone
  let ttl := w.ttlSec * nsPerSec
  let recordType := w.type
  let data := w.target
  let providerData : ProviderMap := [(idKey, GoVal.str (natToStr w.id))]
  let up := upperStr recordType
  if up = "A".toList ∨ up = "AAAA".toList then
    match parseAddr data with
    | some ip => Record.address ⟨name, ttl, ip, some providerData⟩
    | none => Record.rr ⟨name, ttl, recordType, data⟩
  else if up = "TXT".toList then
    Record.txt ⟨name, ttl, data, some providerData⟩
  else if up = "CNAME".toList then
    Record.cname ⟨name, ttl, data, some providerData⟩
  else if up = "MX".toList then
    match goSplitN 2 data ' ' with
    | [p0, p1] =>
      (match atoi p0 with
       | .ok preference =>
         Record.mx ⟨name, ttl, toUint16 preference, p1, some providerData⟩
       | .error _ => Record.rr ⟨name, ttl, recordType, data⟩)
    | _ => Record.rr ⟨name, ttl, recordType, data⟩
  else if up = "SRV".toList then
    match goFields data with
    | [p0, p1, p2, p3] =>
      (match atoi p0, atoi p1, atoi p2 with
       | .ok priority, .ok weight, .ok port =>
         let std := srvNameSplit name
         Record.srv
           ⟨std.1, std.2.1, std.2.2, ttl, toUint16 priority, toUint16 weight,
             toUint16 port, p3, some providerData⟩
       | _, _, _ => Record.rr ⟨name, ttl, recordType, data⟩)
    | _ => Record.rr ⟨name, ttl, recordType, data⟩
  else if up = "NS".toList then
    Record.ns ⟨name, ttl, data, some providerData⟩
  else if up = "CAA".toList then
    match goSplitN 3 data ' ' with
    | [p0, p1, p2] =>
      (match atoi p0 with
       | .ok flags =>
         Record.caa ⟨name, ttl, toUint8 flags, p1, p2, some providerData⟩
       | .error _ => Record.rr ⟨name, ttl, recordType, data⟩)
    | _ => Record.rr ⟨name, ttl, recordType, data⟩
  else Record.rr ⟨name, ttl, recordType, data⟩

/-- mergeWithExistingLibdnsRecord of src/client.go: decode the wire
record freshly; when an existing record is present and its generic type
equals that of the new record, return the new record, and otherwise
return the new record as well (the source keeps the redundant branch). -/
def mergeWithExistingLibdnsRecord (zone : GoStr) (existingRecord : Option Record)
    (w : DomainRecord) : Record :=
  let newRecord := convertToLibdnsRecord zone w
  match existingRecord with
  | some ex => if ex.RR.type = newRecord.RR.type then newRecord else newRecord
  | none => newRecord

/-- The conversion loop of listDomainRecords of src/client.go over an
already fetched wire record list (the convert function is total, so the
nil check of the source never skips an element). -/
def listDomainRecords (zone : GoStr) (wires : List DomainRecord) : List Record :=
  wires.foldl (fun records w => records ++ [convertToLibdnsRecord zone w]) []

/-- The wire payload built by createDomainRecord and updateDomainRecord
of src/client.go: generic fields of the record, the name rendered
relative to the zone, and the TTL in whole seconds. -/
def encodeOpts (zone : GoStr) (record : Record) : RecordOpts :=
  let rr := record.RR
  ⟨rr.type, relativeName rr.name zone, rr.data, rr.ttl / nsPerSec⟩

/-- createDomainRecord of src/client.go: submit the encoded record to
the remote create endpoint and merge the response. -/
def createDomainRecord (remoteCreate : RemoteCreate) (zone : GoStr)
    (domainID : Nat) (record : Record) : Outcome Record :=
  match remoteCreate domainID (encodeOpts zone record) with
  | .error e => .err e
  | .ok w => .ok (mergeWithExistingLibdnsRecord zone (some record) w)

/-- updateDomainRecord of src/client.go: parse the record ID string,
submit the encoded record to the remote update endpoint and merge the
response. -/
def updateDomainRecord (remoteUpdate : RemoteUpdate) (zone : GoStr)
    (domainID : Nat) (record : Record) (recordIDStr : GoStr) : Outcome Record :=
  match atoi recordIDStr with
  | .error e => .err e
  | .ok recordID =>
    match remoteUpdate domainID recordID (encodeOpts zone record) with
    | .error e => .err e
    | .ok w => .ok (mergeWithExistingLibdnsRecord zone (some record) w)

/-- createOrUpdateDomainRecord of src/client.go: when the record carries
provider data with an id entry, take the update path, asserting the
entry to a string (a non-string value panics); otherwise create. -/
def createOrUpdateDomainRecord (remoteCreate : RemoteCreate)
    (remoteUpdate : RemoteUpdate) (zone : GoStr) (domainID : Nat)
    (record : Record) : Outcome Record :=
  match getProviderData record with
  | some providerData =>
    match lookupPD providerData idKey with
    | some id =>
      (match id with
       | .str s => updateDomainRecord remoteUpdate zone domainID record s
       | .nonString => .panicked)
    | none => createDomainRecord remoteCreate zone domainID record
  | none => createDomainRecord remoteCreate zone domainID record

/-- deleteDomainRecord of src/client.go: require provider data with an
id entry, assert it to a string (a non-string value panics), parse it,
and issue the remote delete. -/
def deleteDomainRecord (remoteDelete : RemoteDelete) (domainID : Nat)
    (record : Record) : Outcome Unit :=
  match getProviderData record with
  | none => .err .missingProviderData
  | some providerData =>
    match lookupPD providerData idKey with
    | none => .err .missingId
    | some id =>
      match id with
      | .str s =>
        (match atoi s with
         | .error e => .err e
         | .ok recordID => liftRemote (remoteDelete domainID recordID))
      | .nonString => .panicked

/-- The wire record the server stores for a submitted payload, under the
assumption of the round-trip claim that the server echoes the submitted
fields and assigns an ID. -/
def mkWire (id : Nat) (o : RecordOpts) : DomainRecord :=
  ⟨id, o.type, o.name, o.target, o.ttlSec⟩

/-- The provider data bag the decoder attaches: id mapped to the decimal
rendering of the wire record ID. -/
def attachId (id : Nat) : ProviderData :=
  some [(idKey, GoVal.str (natToStr id))]

/-- A record with its provider data bag replaced by the decoder bag for
the given wire ID (the generic kind has no bag and is unchanged). -/
def withProviderId (id : Nat) : Record → Record
  | .address a => .address { a with providerData := attachId id }
  | .txt t => .txt { t with providerData := attachId id }
  | .cname c => .cname { c with providerData := attachId id }
  | .mx m => .mx { m with providerData := attachId id }
  | .srv s => .srv { s with providerData := attachId id }
  | .ns n => .ns { n with providerData := attachId id }
  | .caa c => .caa { c with providerData := attachId id }
  | .rr r => .rr r

/-- The canonical-format precondition of the round-trip claim, per kind:
the name already zone-relative, the TTL a whole number of seconds, the
numeric fields within their wire widths, composite data parts free of
the separator the decoder splits on, and for SRV a record in the shape
the decoder itself produces: service and transport empty and a residual
name without a leading underscore, reflecting the documented asymmetry
that the service and transport split happens only on decode.  The
generic kind is outside the round-trip claim. -/
def canonicalFormat (zone : GoStr) : Record → Bool
  | .address a =>
    decide (relativeName a.name zone = a.name) && decide (a.ttl % nsPerSec = 0) &&
    validIP a.ip
  | .txt t =>
    decide (relativeName t.name zone = t.name) && decide (t.ttl % nsPerSec = 0)
  | .cname c =>
    decide (relativeName c.name zone = c.name) && decide (c.ttl % nsPerSec = 0)
  | .mx m =>
    decide (relativeName m.name zone = m.name) && decide (m.ttl % nsPerSec = 0) &&
    decide (m.preference < 65536)
  | .srv s =>
    decide (relativeName s.name zone = s.name) && decide (s.ttl % nsPerSec = 0) &&
    decide (s.priority < 65536) && decide (s.weight < 65536) &&
    decide (s.port < 65536) && decide (s.service = []) &&
    decide (s.transport = []) && !goHasPre s.name ['_'] &&
    !s.target.isEmpty && s.target.all (fun c => !isGoSpace c)
  | .ns n =>
    decide (relativeName n.name zone = n.name) && decide (n.ttl % nsPerSec = 0)
  | .caa c =>
    decide (relativeName c.name zone = c.name) && decide (c.ttl % nsPerSec = 0) &&
    decide (c.flags < 256) && c.tag.all (fun ch => !decide (ch = ' '))
  | .rr _ => false

/-! Lemmas about the digit machinery -/

theorem digitVal_digitChar :
    ∀ d < 16, ∀ b < 17, digitVal? b (digitChar d) = if d < b then some d else none := by
  decide

theorem digitChar_class :
    ∀ d < 16, (48 ≤ (digitChar d).toNat ∧ (digitChar d).toNat ≤ 57) ∨
      (97 ≤ (digitChar d).toNat ∧ (digitChar d).toNat ≤ 102) := by
  decide

theorem digitChar_class10 :
    ∀ d < 10, 48 ≤ (digitChar d).toNat ∧ (digitChar d).toNat ≤ 57 := by
  decide

theorem ofDigits_toDigitsAux (b : Nat) (hb : 2 ≤ b) :
    ∀ fuel n, n ≤ fuel → ofDigitsNat b (toDigitsAux b fuel n) = n := by
  intro fuel
  induction fuel with
  | zero =>
    intro n hn
    interval_cases n
    simp [toDigitsAux, ofDigitsNat]
  | succ fuel ih =>
    intro n hn
    by_cases hz : n = 0
    · subst hz
      simp [toDigitsAux, ofDigitsNat]
    · have hdiv : n / b ≤ fuel := by
        have h1 : n / b < n := Nat.div_lt_self (Nat.pos_of_ne_zero hz) hb
        omega
      simp only [toDigitsAux, if_neg hz, ofDigitsNat, ih (n / b) hdiv]
      exact Nat.mod_add_div n b

theorem toDigitsAux_lt (b : Nat) (hb : 2 ≤ b) :
    ∀ fuel n d, d ∈ toDigitsAux b fuel n → d < b := by
  intro fuel
  induction fuel with
  | zero =>
    intro n d hd
    simp [toDigitsAux] at hd
  | succ fuel ih =>
    intro n d hd
    by_cases hz : n = 0
    · subst hz; simp [toDigitsAux] at hd
    · simp only [toDigitsAux, if_neg hz, List.mem_cons] at hd
      rcases hd with hd | hd
      · subst hd
        exact Nat.mod_lt n (by omega)
      · exact ih (n / b) d hd

theorem natDigits_lt (b : Nat) (hb : 2 ≤ b) (n d : Nat) (hd : d ∈ natDigits b n) :
    d < b :=
  toDigitsAux_lt b hb n n d hd

theorem natDigits_ne_nil (b n : Nat) (hn : n ≠ 0) : natDigits b n ≠ [] := by
  unfold natDigits
  cases n with
  | zero => exact absurd rfl hn
  | succ m => simp [toDigitsAux]

theorem mapOpt_digitChar (b : Nat) (hb : b ≤ 16) :
    ∀ l : List Nat, (∀ d ∈ l, d < b) →
      mapOpt (digitVal? b) (l.map digitChar) = some l := by
  intro l
  induction l with
  | nil => intro _; rfl
  | cons d ds ih =>
    intro hl
    have hd : d < b := hl d (List.mem_cons_self d ds)
    have h16 : d < 16 := by omega
    simp only [List.map_cons, mapOpt,
      digitVal_digitChar d h16 b (by omega), if_pos hd,
      ih (fun x hx => hl x (List.mem_cons_of_mem d hx))]

theorem parseNat_renderNat (b : Nat) (hb2 : 2 ≤ b) (hb16 : b ≤ 16) (n : Nat) :
    parseNatBase b (renderNat b n) = some n := by
  by_cases hz : n = 0
  · subst hz
    simp only [renderNat, if_pos rfl, parseNatBase, List.isEmpty_cons,
      Bool.false_eq_true, if_false]
    have h0 : digitVal? b (digitChar 0) = if 0 < b then some 0 else none :=
      digitVal_digitChar 0 (by omega) b (by omega)
    rw [show digitChar 0 = '0' from rfl] at h0
    simp only [mapOpt, h0, if_pos (by omega : 0 < b)]
    simp [ofDigitsNat]
  · have hmem : ∀ d ∈ (natDigits b n).reverse, d < b := by
      intro d hd
      exact natDigits_lt b hb2 n d (List.mem_reverse.mp hd)
    have hne : natDigits b n ≠ [] := natDigits_ne_nil b n hz
    simp only [renderNat, if_neg hz, parseNatBase]
    rw [← List.map_reverse]
    rw [mapOpt_digitChar b hb16 (natDigits b n).reverse hmem]
    have hnonempty : ((natDigits b n).reverse.map digitChar).isEmpty = false := by
      rw [List.isEmpty_eq_false_iff_exists_mem]
      rcases List.exists_mem_of_ne_nil _ hne with ⟨d, hd⟩
      exact ⟨digitChar d, List.mem_map_of_mem _ (List.mem_reverse.mpr hd)⟩
    rw [hnonempty]
    simp only [Bool.false_eq_true, if_false, List.reverse_reverse]
    exact congrArg some (ofDigits_toDigitsAux b hb2 n n (Nat.le_refl n))

theorem natToStr_parse (n : Nat) : parseNatBase 10 (natToStr n) = some n :=
  parseNat_renderNat 10 (by omega) (by omega) n

theorem renderNat_ne_nil (b n : Nat) : renderNat b n ≠ [] := by
  by_cases hz : n = 0
  · subst hz; simp [renderNat]
  · simp only [renderNat, if_neg hz]
    intro hcon
    rcases List.exists_mem_of_ne_nil _ (natDigits_ne_nil b n hz) with ⟨d, hd⟩
    have : digitChar d ∈ ((natDigits b n).map digitChar).reverse :=
      List.mem_reverse.mpr (List.mem_map_of_mem _ hd)
    rw [hcon] at this
    exact List.not_mem_nil _ this

theorem mem_renderNat10 (n : Nat) (c : Char) (hc : c ∈ renderNat 10 n) :
    48 ≤ c.toNat ∧ c.toNat ≤ 57 := by
  by_cases hz : n = 0
  · subst hz
    rw [show renderNat 10 0 = ['0'] from rfl] at hc
    simp only [List.mem_singleton] at hc
    subst hc; decide
  · simp only [renderNat, if_neg hz, List.mem_reverse, List.mem_map] at hc
    rcases hc with ⟨d, hd, hdc⟩
    subst hdc
    exact digitChar_class10 d (natDigits_lt 10 (by omega) n d hd)

theorem mem_renderNat16 (n : Nat) (c : Char) (hc : c ∈ renderNat 16 n) :
    (48 ≤ c.toNat ∧ c.toNat ≤ 57) ∨ (97 ≤ c.toNat ∧ c.toNat ≤ 102) := by
  by_cases hz : n = 0
  · subst hz
    rw [show renderNat 16 0 = ['0'] from rfl] at hc
    simp only [List.mem_singleton] at hc
    subst hc; left; decide
  · simp only [renderNat, if_neg hz, List.mem_reverse, List.mem_map] at hc
    rcases hc with ⟨d, hd, hdc⟩
    subst hdc
    exact digitChar_class d (natDigits_lt 16 (by omega) n d hd)

theorem mem_natToStr_ne (n : Nat) (ch : Char)
    (hch : ch.toNat < 48 ∨ 57 < ch.toNat) : ∀ c ∈ natToStr n, c ≠ ch := by
  intro c hc heq
  have hcls := mem_renderNat10 n c hc
  subst heq
  omega

theorem mem_renderNat16_ne (n : Nat) (ch : Char)
    (hch : (ch.toNat < 48 ∨ 57 < ch.toNat) ∧ (ch.toNat < 97 ∨ 102 < ch.toNat)) :
    ∀ c ∈ renderNat 16 n, c ≠ ch := by
  intro c hc heq
  have hcls := mem_renderNat16 n c hc
  subst heq
  omega

theorem natToStr_no_space (n : Nat) : ∀ c ∈ natToStr n, isGoSpace c = false := by
  intro c hc
  have hcls := mem_renderNat10 n c hc
  simp only [isGoSpace, Bool.or_eq_false_iff, decide_eq_false_iff_not]
  omega

/-! Lemmas about atoi and the narrowing conversions -/

theorem atoi_natToStr (n : Nat) (h : n ≤ 9223372036854775807) :
    atoi (natToStr n) = .ok (n : Int) := by
  cases hns : natToStr n with
  | nil => exact absurd hns (renderNat_ne_nil 10 n)
  | cons c cs =>
    have hmem : c ∈ natToStr n := by rw [hns]; exact List.mem_cons_self c cs
    have hcls := mem_renderNat10 n c hmem
    have hminus : ¬(c = '-') := by
      intro h2; subst h2; exact absurd hcls (by decide)
    have hplus : ¬(c = '+') := by
      intro h2; subst h2; exact absurd hcls (by decide)
    have hparse : parseNatBase 10 (c :: cs) = some n := by
      rw [← hns]; exact natToStr_parse n
    simp only [atoi, decide_eq_false hminus, if_neg (not_or.mpr ⟨hminus, hplus⟩),
      hparse, Bool.false_eq_true, if_false]
    rw [if_neg]
    omega

theorem toUint16_coe (n : Nat) (h : n < 65536) : toUint16 (n : Int) = n := by
  unfold toUint16
  rw [Int.emod_eq_of_lt (by positivity) (by exact_mod_cast h)]
  exact Int.toNat_natCast n

theorem toUint8_coe (n : Nat) (h : n < 256) : toUint8 (n : Int) = n := by
  unfold toUint8
  rw [Int.emod_eq_of_lt (by positivity) (by exact_mod_cast h)]
  exact Int.toNat_natCast n

/-! Lemmas about the string splitting helpers -/

theorem splitFirst_not_mem (sep : Char) :
    ∀ s : GoStr, (∀ c ∈ s, c ≠ sep) → splitFirst s sep = none := by
  intro s
  induction s with
  | nil => intro _; rfl
  | cons c cs ih =>
    intro hs
    have hc : ¬(c = sep) := hs c (List.mem_cons_self c cs)
    simp only [splitFirst, if_neg hc,
      ih (fun x hx => hs x (List.mem_cons_of_mem c hx))]

theorem splitFirst_append (sep : Char) :
    ∀ (w rest : GoStr), (∀ c ∈ w, c ≠ sep) →
      splitFirst (w ++ sep :: rest) sep = some (w, rest) := by
  intro w
  induction w with
  | nil => intro rest _; simp [splitFirst]
  | cons c cs ih =>
    intro rest hw
    have hc : ¬(c = sep) := hw c (List.mem_cons_self c cs)
    simp only [List.cons_append, splitFirst, if_neg hc, List.append_eq,
      ih rest (fun x hx => hw x (List.mem_cons_of_mem c hx))]

theorem goSplitN_two (sep : Char) (w rest : GoStr) (hw : ∀ c ∈ w, c ≠ sep) :
    goSplitN 2 (w ++ sep :: rest) sep = [w, rest] := by
  simp [goSplitN, splitFirst_append sep w rest hw]

theorem goSplitN_two_none (sep : Char) (s : GoStr) (hs : ∀ c ∈ s, c ≠ sep) :
    goSplitN 2 s sep = [s] := by
  simp [goSplitN, splitFirst_not_mem sep s hs]

theorem goSplitN_three (sep : Char) (w1 w2 rest : GoStr)
    (h1 : ∀ c ∈ w1, c ≠ sep) (h2 : ∀ c ∈ w2, c ≠ sep) :
    goSplitN 3 (w1 ++ sep :: (w2 ++ sep :: rest)) sep = [w1, w2, rest] := by
  simp [goSplitN, splitFirst_append sep w1 _ h1, splitFirst_append sep w2 _ h2]

theorem goSplitN_three_two (sep : Char) (w1 w2 : GoStr)
    (h1 : ∀ c ∈ w1, c ≠ sep) (h2 : ∀ c ∈ w2, c ≠ sep) :
    goSplitN 3 (w1 ++ sep :: w2) sep = [w1, w2] := by
  simp [goSplitN, splitFirst_append sep w1 _ h1, splitFirst_not_mem sep w2 h2]

theorem goSplitN_three_one (sep : Char) (s : GoStr) (hs : ∀ c ∈ s, c ≠ sep) :
    goSplitN 3 s sep = [s] := by
  simp [goSplitN, splitFirst_not_mem sep s hs]

theorem fieldsAux_word :
    ∀ (w : GoStr), (∀ c ∈ w, isGoSpace c = false) →
      ∀ (rest acc : GoStr), fieldsAux (w ++ rest) acc = fieldsAux rest (w.reverse ++ acc) := by
  intro w
  induction w with
  | nil => intro _ rest acc; simp
  | cons c cs ih =>
    intro hw rest acc
    have hc : isGoSpace c = false := hw c (List.mem_cons_self c cs)
    simp only [List.cons_append, fieldsAux, hc, Bool.false_eq_true, if_false,
      List.append_eq]
    rw [ih (fun x hx => hw x (List.mem_cons_of_mem c hx)) rest (c :: acc)]
    simp [List.append_assoc]

theorem goFields_cons_word (w rest : GoStr) (hw : ∀ c ∈ w, isGoSpace c = false)
    (hne : w ≠ []) : goFields (w ++ ' ' :: rest) = w :: goFields rest := by
  unfold goFields
  rw [fieldsAux_word w hw (' ' :: rest) []]
  have hrev : w.reverse.isEmpty = false := by
    simp only [List.isEmpty_eq_false_iff_exists_mem]
    rcases List.exists_mem_of_ne_nil w hne with ⟨x, hx⟩
    exact ⟨x, List.mem_reverse.mpr hx⟩
  simp only [List.append_nil, fieldsAux, show isGoSpace ' ' = true from rfl,
    if_true, hrev, Bool.false_eq_true, if_false, List.reverse_reverse]

theorem goFields_word (w : GoStr) (hw : ∀ c ∈ w, isGoSpace c = false)
    (hne : w ≠ []) : goFields w = [w] := by
  unfold goFields
  rw [show w = w ++ [] from (List.append_nil w).symm, fieldsAux_word w hw [] []]
  have hrev : w.reverse.isEmpty = false := by
    simp only [List.isEmpty_eq_false_iff_exists_mem]
    rcases List.exists_mem_of_ne_nil w hne with ⟨x, hx⟩
    exact ⟨x, List.mem_reverse.mpr hx⟩
  simp only [List.append_nil, fieldsAux, hrev, Bool.false_eq_true, if_false,
    List.reverse_reverse]

theorem splitFullAux_word (sep : Char) :
    ∀ (w : GoStr), (∀ c ∈ w, c ≠ sep) →
      ∀ (rest acc : GoStr), splitFullAux (w ++ rest) sep acc = splitFullAux rest sep (w.reverse ++ acc) := by
  intro w
  induction w with
  | nil => intro _ rest acc; simp
  | cons c cs ih =>
    intro hw rest acc
    have hc : ¬(c = sep) := hw c (List.mem_cons_self c cs)
    simp only [List.cons_append, splitFullAux, if_neg hc, List.append_eq]
    rw [ih (fun x hx => hw x (List.mem_cons_of_mem c hx)) rest (c :: acc)]
    simp [List.append_assoc]

theorem splitFull_cons (sep : Char) (w rest : GoStr) (hw : ∀ c ∈ w, c ≠ sep) :
    splitFull (w ++ sep :: rest) sep = w :: splitFull rest sep := by
  unfold splitFull
  rw [splitFullAux_word sep w hw (sep :: rest) []]
  simp [splitFullAux]

theorem splitFull_single (sep : Char) (w : GoStr) (hw : ∀ c ∈ w, c ≠ sep) :
    splitFull w sep = [w] := by
  unfold splitFull
  rw [show w = w ++ [] from (List.append_nil w).symm, splitFullAux_word sep w hw [] []]
  simp [splitFullAux]

theorem strContains_append_cons (xs ys : GoStr) (ch : Char) :
    strContains (xs ++ ch :: ys) ch = true := by
  simp [strContains, List.any_append]

theorem strContains_eq_false (s : GoStr) (ch : Char) (h : ∀ c ∈ s, c ≠ ch) :
    strContains s ch = false := by
  simp only [strContains, List.any_eq_false, decide_eq_true_eq]
  exact h

/-! Round trip of the modelled IP rendering and parse -/

theorem parseV4Part_natToStr (n : Nat) (h : n < 256) :
    parseV4Part (natToStr n) = some n := by
  simp [parseV4Part, natToStr_parse n, if_pos h]

theorem parseV6Group_renderNat (n : Nat) (h : n < 65536) :
    parseV6Group (renderNat 16 n) = some n := by
  simp [parseV6Group, parseNat_renderNat 16 (by omega) (by omega) n, if_pos h]

theorem parseAddr_renderIP (ip : IPAddr) (h : validIP ip = true) :
    parseAddr (renderIP ip) = some ip := by
  cases ip with
  | v4 a b c d =>
    simp only [validIP, Bool.and_eq_true, decide_eq_true_eq] at h
    rcases h with ⟨⟨⟨ha, hb⟩, hc⟩, hd⟩
    have hdot : ∀ m : Nat, ∀ x ∈ natToStr m, x ≠ '.' :=
      fun m => mem_natToStr_ne m '.' (by decide)
    have hcolon : strContains (renderIP (.v4 a b c d)) ':' = false := by
      apply strContains_eq_false
      intro x hx
      simp only [renderIP, List.mem_append, List.mem_cons] at hx
      rcases hx with hx | hx | hx | hx | hx | hx | hx
      · exact mem_natToStr_ne a ':' (by decide) x hx
      · subst hx; decide
      · exact mem_natToStr_ne b ':' (by decide) x hx
      · subst hx; decide
      · exact mem_natToStr_ne c ':' (by decide) x hx
      · subst hx; decide
      · exact mem_natToStr_ne d ':' (by decide) x hx
    simp only [parseAddr, renderIP] at hcolon ⊢
    rw [hcolon]
    simp only [Bool.false_eq_true, if_false]
    rw [splitFull_cons '.' _ _ (hdot a), splitFull_cons '.' _ _ (hdot b),
      splitFull_cons '.' _ _ (hdot c), splitFull_single '.' _ (hdot d)]
    simp only [mapOpt, parseV4Part_natToStr a ha, parseV4Part_natToStr b hb,
      parseV4Part_natToStr c hc, parseV4Part_natToStr d hd]
  | v6 g0 g1 g2 g3 g4 g5 g6 g7 =>
    simp only [validIP, Bool.and_eq_true, decide_eq_true_eq] at h
    rcases h with ⟨⟨⟨⟨⟨⟨⟨h0, h1⟩, h2⟩, h3⟩, h4⟩, h5⟩, h6⟩, h7⟩
    have hcol : ∀ m : Nat, ∀ x ∈ renderNat 16 m, x ≠ ':' :=
      fun m => mem_renderNat16_ne m ':' (by decide)
    simp only [parseAddr, renderIP]
    rw [strContains_append_cons]
    simp only [if_true]
    rw [splitFull_cons ':' _ _ (hcol g0), splitFull_cons ':' _ _ (hcol g1),
      splitFull_cons ':' _ _ (hcol g2), splitFull_cons ':' _ _ (hcol g3),
      splitFull_cons ':' _ _ (hcol g4), splitFull_cons ':' _ _ (hcol g5),
      splitFull_cons ':' _ _ (hcol g6), splitFull_single ':' _ (hcol g7)]
    simp only [mapOpt, parseV6Group_renderNat g0 h0, parseV6Group_renderNat g1 h1,
      parseV6Group_renderNat g2 h2, parseV6Group_renderNat g3 h3,
      parseV6Group_renderNat g4 h4, parseV6Group_renderNat g5 h5,
      parseV6Group_renderNat g6 h6, parseV6Group_renderNat g7 h7]

/-! Branch lemmas for the decoder dispatch -/

theorem convert_addr_branch (zone : GoStr) (w : DomainRecord)
    (h : upperStr w.type = "A".toList ∨ upperStr w.type = "AAAA".toList) :
    convertToLibdnsRecord zone w =
      (match parseAddr w.target with
       | some ip =>
         Record.address ⟨relativeName w.name zone, w.ttlSec * nsPerSec, ip, attachId w.id⟩
       | none =>
         Record.rr ⟨relativeName w.name zone, w.ttlSec * nsPerSec, w.type, w.target⟩) := by
  simp only [convertToLibdnsRecord, if_pos h]
  rfl

theorem convert_txt_branch (zone : GoStr) (w : DomainRecord)
    (h : upperStr w.type = "TXT".toList) :
    convertToLibdnsRecord zone w =
      Record.txt ⟨relativeName w.name zone, w.ttlSec * nsPerSec, w.target, attachId w.id⟩ := by
  have hA : ¬(upperStr w.type = "A".toList ∨ upperStr w.type = "AAAA".toList) := by
    rw [h]; decide
  simp only [convertToLibdnsRecord, if_neg hA, if_pos h]
  rfl

theorem convert_cname_branch (zone : GoStr) (w : DomainRecord)
    (h : upperStr w.type = "CNAME".toList) :
    convertToLibdnsRecord zone w =
      Record.cname ⟨relativeName w.name zone, w.ttlSec * nsPerSec, w.target, attachId w.id⟩ := by
  have hA : ¬(upperStr w.type = "A".toList ∨ upperStr w.type = "AAAA".toList) := by
    rw [h]; decide
  have hT : ¬(upperStr w.type = "TXT".toList) := by rw [h]; decide
  simp only [convertToLibdnsRecord, if_neg hA, if_neg hT, if_pos h]
  rfl

theorem convert_mx_branch (zone : GoStr) (w : DomainRecord)
    (h : upperStr w.type = "MX".toList) :
    convertToLibdnsRecord zone w =
      (match goSplitN 2 w.target ' ' with
       | [p0, p1] =>
         (match atoi p0 with
          | .ok preference =>
            Record.mx ⟨relativeName w.name zone, w.ttlSec * nsPerSec,
              toUint16 preference, p1, attachId w.id⟩
          | .error _ =>
            Record.rr ⟨relativeName w.name zone, w.ttlSec * nsPerSec, w.type, w.target⟩)
       | _ =>
         Record.rr ⟨relativeName w.name zone, w.ttlSec * nsPerSec, w.type, w.target⟩) := by
  have hA : ¬(upperStr w.type = "A".toList ∨ upperStr w.type = "AAAA".toList) := by
    rw [h]; decide
  have hT : ¬(upperStr w.type = "TXT".toList) := by rw [h]; decide
  have hC : ¬(upperStr w.type = "CNAME".toList) := by rw [h]; decide
  simp only [convertToLibdnsRecord, if_neg hA, if_neg hT, if_neg hC, if_pos h]
  rfl

theorem convert_srv_branch (zone : GoStr) (w : DomainRecord)
    (h : upperStr w.type = "SRV".toList) :
    convertToLibdnsRecord zone w =
      (match goFields w.target with
       | [p0, p1, p2, p3] =>
         (match atoi p0, atoi p1, atoi p2 with
          | .ok priority, .ok weight, .ok port =>
            Record.srv ⟨(srvNameSplit (relativeName w.name zone)).1,
              (srvNameSplit (relativeName w.name zone)).2.1,
              (srvNameSplit (relativeName w.name zone)).2.2,
              w.ttlSec * nsPerSec, toUint16 priority, toUint16 weight,
              toUint16 port, p3, attachId w.id⟩
          | _, _, _ =>
            Record.rr ⟨relativeName w.name zone, w.ttlSec * nsPerSec, w.type, w.target⟩)
       | _ =>
         Record.rr ⟨relativeName w.name zone, w.ttlSec * nsPerSec, w.type, w.target⟩) := by
  have hA : ¬(upperStr w.type = "A".toList ∨ upperStr w.type = "AAAA".toList) := by
    rw [h]; decide
  have hT : ¬(upperStr w.type = "TXT".toList) := by rw [h]; decide
  have hC : ¬(upperStr w.type = "CNAME".toList) := by rw [h]; decide
  have hM : ¬(upperStr w.type = "MX".toList) := by rw [h]; decide
  simp only [convertToLibdnsRecord, if_neg hA, if_neg hT, if_neg hC, if_neg hM, if_pos h]
  rfl

theorem convert_ns_branch (zone : GoStr) (w : DomainRecord)
    (h : upperStr w.type = "NS".toList) :
    convertToLibdnsRecord zone w =
      Record.ns ⟨relativeName w.name zone, w.ttlSec * nsPerSec, w.target, attachId w.id⟩ := by
  have hA : ¬(upperStr w.type = "A".toList ∨ upperStr w.type = "AAAA".toList) := by
    rw [h]; decide
  have hT : ¬(upperStr w.type = "TXT".toList) := by rw [h]; decide
  have hC : ¬(upperStr w.type = "CNAME".toList) := by rw [h]; decide
  have hM : ¬(upperStr w.type = "MX".toList) := by rw [h]; decide
  have hS : ¬(upperStr w.type = "SRV".toList) := by rw [h]; decide
  simp only [convertToLibdnsRecord, if_neg hA, if_neg hT, if_neg hC, if_neg hM,
    if_neg hS, if_pos h]
  rfl

theorem convert_caa_branch (zone : GoStr) (w : DomainRecord)
    (h : upperStr w.type = "CAA".toList) :
    convertToLibdnsRecord zone w =
      (match goSplitN 3 w.target ' ' with
       | [p0, p1, p2] =>
         (match atoi p0 with
          | .ok flags =>
            Record.caa ⟨relativeName w.name zone, w.ttlSec * nsPerSec,
              toUint8 flags, p1, p2, attachId w.id⟩
          | .error _ =>
            Record.rr ⟨relativeName w.name zone, w.ttlSec * nsPerSec, w.type, w.target⟩)
       | _ =>
         Record.rr ⟨relativeName w.name zone, w.ttlSec * nsPerSec, w.type, w.target⟩) := by
  have hA : ¬(upperStr w.type = "A".toList ∨ upperStr w.type = "AAAA".toList) := by
    rw [h]; decide
  have hT : ¬(upperStr w.type = "TXT".toList) := by rw [h]; decide
  have hC : ¬(upperStr w.type = "CNAME".toList) := by rw [h]; decide
  have hM : ¬(upperStr w.type = "MX".toList) := by rw [h]; decide
  have hS : ¬(upperStr w.type = "SRV".toList) := by rw [h]; decide
  have hN : ¬(upperStr w.type = "NS".toList) := by rw [h]; decide
  simp only [convertToLibdnsRecord, if_neg hA, if_neg hT, if_neg hC, if_neg hM,
    if_neg hS, if_neg hN, if_pos h]
  rfl

theorem convert_other_branch (zone : GoStr) (w : DomainRecord)
    (hA : ¬(upperStr w.type = "A".toList ∨ upperStr w.type = "AAAA".toList))
    (hT : ¬(upperStr w.type = "TXT".toList))
    (hC : ¬(upperStr w.type = "CNAME".toList))
    (hM : ¬(upperStr w.type = "MX".toList))
    (hS : ¬(upperStr w.type = "SRV".toList))
    (hN : ¬(upperStr w.type = "NS".toList))
    (hCA : ¬(upperStr w.type = "CAA".toList)) :
    convertToLibdnsRecord zone w =
      Record.rr ⟨relativeName w.name zone, w.ttlSec * nsPerSec, w.type, w.target⟩ := by
  simp only [convertToLibdnsRecord, if_neg hA, if_neg hT, if_neg hC, if_neg hM,
    if_neg hS, if_neg hN, if_neg hCA]

/-! Characterization of the SRV name split -/

theorem srvNameSplit_no_underscore (name : GoStr) (h : goHasPre name ['_'] = false) :
    srvNameSplit name = ([], [], name) := by
  simp [srvNameSplit, h]

theorem srvNameSplit_three (name n0 n1 rest : GoStr)
    (hu : goHasPre name ['_'] = true)
    (hname : name = n0 ++ ('.' :: (n1 ++ ('.' :: rest))))
    (h0 : ∀ c ∈ n0, c ≠ '.') (h1 : ∀ c ∈ n1, c ≠ '.') :
    srvNameSplit name = (goTrimPre n0 ['_'], goTrimPre n1 ['_'], rest) := by
  unfold srvNameSplit
  rw [if_pos hu, hname, goSplitN_three '.' n0 n1 rest h0 h1]

theorem srvNameSplit_two (name n0 n1 : GoStr)
    (hu : goHasPre name ['_'] = true)
    (hname : name = n0 ++ ('.' :: n1))
    (h0 : ∀ c ∈ n0, c ≠ '.') (h1 : ∀ c ∈ n1, c ≠ '.') :
    srvNameSplit name = (goTrimPre n0 ['_'], goTrimPre n1 ['_'], []) := by
  unfold srvNameSplit
  rw [if_pos hu, hname, goSplitN_three_two '.' n0 n1 h0 h1]

theorem srvNameSplit_one (name : GoStr)
    (hu : goHasPre name ['_'] = true) (hd : ∀ c ∈ name, c ≠ '.') :
    srvNameSplit name = ([], [], name) := by
  unfold srvNameSplit
  rw [if_pos hu, goSplitN_three_one '.' name hd]

/-! Provider data attached by the decoder -/

theorem convert_pd_cases (zone : GoStr) (w : DomainRecord) :
    getProviderData (convertToLibdnsRecord zone w) = none ∧
      isGeneric (convertToLibdnsRecord zone w) = true ∨
    getProviderData (convertToLibdnsRecord zone w) =
        some [(idKey, GoVal.str (natToStr w.id))] ∧
      isGeneric (convertToLibdnsRecord zone w) = false := by
  simp only [convertToLibdnsRecord]
  split_ifs <;> try split
  all_goals try split
  all_goals simp [getProviderData, isGeneric]

theorem foldl_append_map (zone : GoStr) :
    ∀ (wires : List DomainRecord) (acc : List Record),
      wires.foldl (fun records w => records ++ [convertToLibdnsRecord zone w]) acc =
        acc ++ wires.map (convertToLibdnsRecord zone) := by
  intro wires
  induction wires with
  | nil => intro acc; simp
  | cons w ws ih =>
    intro acc
    simp only [List.foldl_cons, List.map_cons, ih, List.append_assoc,
      List.singleton_append]

/-- Claim C7: for every zone, every existing normalized record (including
the absent record and records of a different kind) and every server wire
record, mergeWithExistingLibdnsRecord returns exactly the record freshly
decoded from the server response; no field-level merging occurs. -/
theorem merge_is_fresh_decode (zone : GoStr) (existing : Option Record)
    (w : DomainRecord) :
    mergeWithExistingLibdnsRecord zone existing w = convertToLibdnsRecord zone w := by
  unfold mergeWithExistingLibdnsRecord
  cases existing with
  | none => rfl
  | some ex => simp only [ite_self]

/-- Claim C8: over the wire records of a successful listing, the
conversion loop of listDomainRecords returns exactly one normalized
record per wire record, in the same order (it maps the decoder over the
list), and in particular the lengths agree; records that fall back to
the generic kind are kept like any others, so none is dropped. -/
theorem list_decodes_each_wire_record (zone : GoStr) (wires : List DomainRecord) :
    listDomainRecords zone wires = wires.map (convertToLibdnsRecord zone) ∧
      (listDomainRecords zone wires).length = wires.length := by
  have hmap : listDomainRecords zone wires = wires.map (convertToLibdnsRecord zone) := by
    unfold listDomainRecords
    rw [foldl_append_map zone wires []]
    simp
  exact ⟨hmap, by rw [hmap]; simp⟩

/-- Claim C6: every wire record that decodes to a kind-specific record
carries provider data mapping the id key to the wire ID rendered as a
decimal string, and a wire record that decodes to the generic fallback
carries no provider data at all. -/
theorem decode_provider_data (zone : GoStr) (w : DomainRecord) :
    getProviderData (convertToLibdnsRecord zone w) =
      if isGeneric (convertToLibdnsRecord zone w) then none
      else some [(idKey, GoVal.str (natToStr w.id))] := by
  rcases convert_pd_cases zone w with ⟨hpd, hgen⟩ | ⟨hpd, hgen⟩
  · rw [hpd, hgen]; rfl
  · rw [hpd, hgen]; rfl

theorem lookupPD_single (k : GoStr) (v : GoVal) : lookupPD [(k, v)] k = some v := by
  simp [lookupPD]

theorem updateDomainRecord_no_panic (remoteUpdate : RemoteUpdate) (zone : GoStr)
    (domainID : Nat) (record : Record) (s : GoStr) :
    isPanicked (updateDomainRecord remoteUpdate zone domainID record s) = false := by
  unfold updateDomainRecord
  cases hat : atoi s with
  | error e => rfl
  | ok recordID =>
    cases hru : remoteUpdate domainID recordID (encodeOpts zone record) with
    | error e => simp [isPanicked, hru]
    | ok w2 => simp [isPanicked, hru]

theorem createDomainRecord_no_panic (remoteCreate : RemoteCreate) (zone : GoStr)
    (domainID : Nat) (record : Record) :
    isPanicked (createDomainRecord remoteCreate zone domainID record) = false := by
  unfold createDomainRecord
  cases hrc : remoteCreate domainID (encodeOpts zone record) with
  | error e => rfl
  | ok w2 => rfl

/-- Claim C10: the upsert and delete operations read the provider-data
id entry through an unchecked string assertion.  For every record the
decoder produced, the entry is a string and neither operation panics,
whatever the zones, domain ID and remote endpoints; but a caller-built
record whose id entry is not a string makes both operations panic
instead of returning an error. -/
theorem provider_id_assertion_behavior :
    (∀ (zone zone2 : GoStr) (w : DomainRecord) (remoteCreate : RemoteCreate)
      (remoteUpdate : RemoteUpdate) (domainID : Nat),
      isPanicked (createOrUpdateDomainRecord remoteCreate remoteUpdate zone2
        domainID (convertToLibdnsRecord zone w)) = false) ∧
    (∀ (zone : GoStr) (w : DomainRecord) (remoteDelete : RemoteDelete)
      (domainID : Nat),
      isPanicked (deleteDomainRecord remoteDelete domainID
        (convertToLibdnsRecord zone w)) = false) ∧
    createOrUpdateDomainRecord (fun _ _ => .error (.remote 0))
      (fun _ _ _ => .error (.remote 0)) [] 1
      (Record.txt ⟨[], 0, [], some [(idKey, GoVal.nonString)]⟩) =
      Outcome.panicked ∧
    deleteDomainRecord (fun _ _ => .ok ()) 1
      (Record.txt ⟨[], 0, [], some [(idKey, GoVal.nonString)]⟩) =
      Outcome.panicked := by
  refine ⟨?_, ?_, rfl, rfl⟩
  · intro zone zone2 w remoteCreate remoteUpdate domainID
    rcases convert_pd_cases zone w with ⟨hpd, _⟩ | ⟨hpd, _⟩
    · unfold createOrUpdateDomainRecord
      rw [hpd]
      exact createDomainRecord_no_panic remoteCreate zone2 domainID _
    · unfold createOrUpdateDomainRecord
      rw [hpd]
      exact updateDomainRecord_no_panic remoteUpdate zone2 domainID _ _
  · intro zone w remoteDelete domainID
    rcases convert_pd_cases zone w with ⟨hpd, _⟩ | ⟨hpd, _⟩
    · unfold deleteDomainRecord
      rw [hpd]
      rfl
    · unfold deleteDomainRecord
      rw [hpd]
      cases hat : atoi (natToStr w.id) with
      | error e => simp [isPanicked, lookupPD_single, hat]
      | ok recordID =>
        cases hrd : remoteDelete domainID recordID with
        | error e => simp [isPanicked, liftRemote, lookupPD_single, hat, hrd]
        | ok u => simp [isPanicked, liftRemote, lookupPD_single, hat, hrd]

/-- Claim C9: a wire MX record whose first target field parses as an
integer outside the unsigned 16-bit range does not degrade to the
generic fallback; the decoder keeps the MailExchange kind and stores
the parsed value reduced modulo 2 to the 16 (so -1 becomes 65535 and
70000 becomes 4464); likewise the SRV priority, weight and port wrap
modulo 2 to the 16 and the CAA flags wrap modulo 2 to the 8. -/
theorem decode_wraps_out_of_range_values :
    convertToLibdnsRecord ("example.com.".toList)
        ⟨7, "MX".toList, "www".toList, "-1 host".toList, 300⟩ =
      Record.mx ⟨"www".toList, 300 * nsPerSec, 65535, "host".toList, attachId 7⟩ ∧
    convertToLibdnsRecord ("example.com.".toList)
        ⟨8, "MX".toList, "www".toList, "70000 host".toList, 300⟩ =
      Record.mx ⟨"www".toList, 300 * nsPerSec, 4464, "host".toList, attachId 8⟩ ∧
    convertToLibdnsRecord ("example.com.".toList)
        ⟨9, "SRV".toList, "www".toList, "65537 -2 70000 t.example.com".toList, 300⟩ =
      Record.srv ⟨[], [], "www".toList, 300 * nsPerSec, 1, 65534, 4464,
        "t.example.com".toList, attachId 9⟩ ∧
    convertToLibdnsRecord ("example.com.".toList)
        ⟨10, "CAA".toList, "www".toList, "300 issue ca.example.net".toList, 300⟩ =
      Record.caa ⟨"www".toList, 300 * nsPerSec, 44, "issue".toList,
        "ca.example.net".toList, attachId 10⟩ := by
  refine ⟨?_, ?_, ?_, ?_⟩ <;> rfl

/-- Claim C2: the upsert operation takes the update path, with the
stored id string, exactly when the record carries provider data with an
id entry, and then never performs a create (the result does not involve
the create endpoint); with no provider data or no id entry it performs
the create and never an update.  The id entry is taken as a string, the
only shape this adapter stores; a non-string entry is the panic case of
the separate assertion claim. -/
theorem upsert_update_iff_stored_id (remoteCreate : RemoteCreate)
    (remoteUpdate : RemoteUpdate) (zone : GoStr) (domainID : Nat)
    (record : Record) :
    (∀ pd s, getProviderData record = some pd →
      lookupPD pd idKey = some (GoVal.str s) →
      createOrUpdateDomainRecord remoteCreate remoteUpdate zone domainID record =
        updateDomainRecord remoteUpdate zone domainID record s) ∧
    (getProviderData record = none →
      createOrUpdateDomainRecord remoteCreate remoteUpdate zone domainID record =
        createDomainRecord remoteCreate zone domainID record) ∧
    (∀ pd, getProviderData record = some pd → lookupPD pd idKey = none →
      createOrUpdateDomainRecord remoteCreate remoteUpdate zone domainID record =
        createDomainRecord remoteCreate zone domainID record) := by
  refine ⟨?_, ?_, ?_⟩
  · intro pd s hpd hlk
    simp only [createOrUpdateDomainRecord, hpd, hlk]
  · intro hpd
    simp only [createOrUpdateDomainRecord, hpd]
  · intro pd hpd hlk
    simp only [createOrUpdateDomainRecord, hpd, hlk]

theorem upsert_update_iff_stored_id_witness :
    (createOrUpdateDomainRecord (fun _ _ => Except.error (GoErr.remote 1))
      (fun _ _ _ => Except.error (GoErr.remote 2)) ("example.com.".toList) 5
      (Record.txt ⟨"x".toList, 0, "t".toList,
        some [(idKey, GoVal.str ("42".toList))]⟩) =
      updateDomainRecord (fun _ _ _ => Except.error (GoErr.remote 2))
        ("example.com.".toList) 5
        (Record.txt ⟨"x".toList, 0, "t".toList,
          some [(idKey, GoVal.str ("42".toList))]⟩) ("42".toList)) ∧
    (createOrUpdateDomainRecord (fun _ _ => Except.error (GoErr.remote 1))
      (fun _ _ _ => Except.error (GoErr.remote 2)) ("example.com.".toList) 5
      (Record.txt ⟨"x".toList, 0, "t".toList, none⟩) =
      createDomainRecord (fun _ _ => Except.error (GoErr.remote 1))
        ("example.com.".toList) 5
        (Record.txt ⟨"x".toList, 0, "t".toList, none⟩)) ∧
    (createOrUpdateDomainRecord (fun _ _ => Except.error (GoErr.remote 1))
      (fun _ _ _ => Except.error (GoErr.remote 2)) ("example.com.".toList) 5
      (Record.txt ⟨"x".toList, 0, "t".toList, some []⟩) =
      createDomainRecord (fun _ _ => Except.error (GoErr.remote 1))
        ("example.com.".toList) 5
        (Record.txt ⟨"x".toList, 0, "t".toList, some []⟩)) := by
  refine ⟨?_, ?_, ?_⟩
  · exact (upsert_update_iff_stored_id _ _ _ 5 _).1 _ ("42".toList) rfl rfl
  · exact (upsert_update_iff_stored_id _ _ _ 5 _).2.1 rfl
  · exact (upsert_update_iff_stored_id _ _ _ 5 _).2.2 [] rfl rfl

/-- Claim C3: the delete operation fails locally, with no remote call
(its result does not involve the remote endpoint), when the record has
no provider data or no id entry, each with its fixed local error; it
fails locally with the strconv error when the stored id string does not
parse as an integer; and otherwise it issues the remote delete with the
parsed ID and returns that call result.  As in the upsert claim, the id
entry is taken as a string. -/
theorem delete_requires_parsable_stored_id (remoteDelete : RemoteDelete)
    (domainID : Nat) (record : Record) :
    (getProviderData record = none →
      deleteDomainRecord remoteDelete domainID record =
        Outcome.err GoErr.missingProviderData) ∧
    (∀ pd, getProviderData record = some pd → lookupPD pd idKey = none →
      deleteDomainRecord remoteDelete domainID record =
        Outcome.err GoErr.missingId) ∧
    (∀ pd s e, getProviderData record = some pd →
      lookupPD pd idKey = some (GoVal.str s) → atoi s = Except.error e →
      deleteDomainRecord remoteDelete domainID record = Outcome.err e) ∧
    (∀ pd s n, getProviderData record = some pd →
      lookupPD pd idKey = some (GoVal.str s) → atoi s = Except.ok n →
      deleteDomainRecord remoteDelete domainID record =
        liftRemote (remoteDelete domainID n)) := by
  refine ⟨?_, ?_, ?_, ?_⟩
  · intro hpd
    simp only [deleteDomainRecord, hpd]
  · intro pd hpd hlk
    simp only [deleteDomainRecord, hpd, hlk]
  · intro pd s e hpd hlk hat
    simp only [deleteDomainRecord, hpd, hlk, hat]
  · intro pd s n hpd hlk hat
    simp only [deleteDomainRecord, hpd, hlk, hat]

theorem delete_requires_parsable_stored_id_witness :
    (deleteDomainRecord (fun _ _ => Except.ok ()) 5
      (Record.txt ⟨"x".toList, 0, "t".toList, none⟩) =
      Outcome.err GoErr.missingProviderData) ∧
    (deleteDomainRecord (fun _ _ => Except.ok ()) 5
      (Record.txt ⟨"x".toList, 0, "t".toList, some []⟩) =
      Outcome.err GoErr.missingId) ∧
    (deleteDomainRecord (fun _ _ => Except.ok ()) 5
      (Record.txt ⟨"x".toList, 0, "t".toList,
        some [(idKey, GoVal.str ("abc".toList))]⟩) =
      Outcome.err (GoErr.numErr AtoiKind.synErr ("abc".toList))) ∧
    (deleteDomainRecord (fun _ _ => Except.error (GoErr.remote 3)) 5
      (Record.txt ⟨"x".toList, 0, "t".toList,
        some [(idKey, GoVal.str ("42".toList))]⟩) =
      Outcome.err (GoErr.remote 3)) := by
  refine ⟨?_, ?_, ?_, ?_⟩
  · exact (delete_requires_parsable_stored_id _ 5 _).1 rfl
  · exact (delete_requires_parsable_stored_id _ 5 _).2.1 [] rfl rfl
  · exact (delete_requires_parsable_stored_id _ 5 _).2.2.1 _ ("abc".toList) _ rfl rfl rfl
  · exact (delete_requires_parsable_stored_id _ 5 _).2.2.2 _ ("42".toList) 42 rfl rfl rfl

/-- Claim C5: decoding a wire record of type MX (case-insensitive)
splits the target at the first space; when that yields two parts and the
first parses as an integer, the result is a MailExchange record with
that preference (within the unsigned 16-bit width of the field; the
wrapping of out-of-range values is the separate numeric claim) and the
second part as target; when the first part does not parse, or there is
no space at all, the record degrades to the generic fallback with the
raw type and data, not an error. -/
theorem mx_decode_splits_first_space (zone : GoStr) (w : DomainRecord)
    (h : upperStr w.type = "MX".toList) :
    (∀ p0 p1 v, goSplitN 2 w.target ' ' = [p0, p1] → atoi p0 = Except.ok v →
      0 ≤ v → v < 65536 →
      convertToLibdnsRecord zone w =
        Record.mx ⟨relativeName w.name zone, w.ttlSec * nsPerSec, v.toNat, p1,
          attachId w.id⟩) ∧
    (∀ p0 p1 e, goSplitN 2 w.target ' ' = [p0, p1] → atoi p0 = Except.error e →
      convertToLibdnsRecord zone w =
        Record.rr ⟨relativeName w.name zone, w.ttlSec * nsPerSec, w.type, w.target⟩) ∧
    (goSplitN 2 w.target ' ' = [w.target] →
      convertToLibdnsRecord zone w =
        Record.rr ⟨relativeName w.name zone, w.ttlSec * nsPerSec, w.type, w.target⟩) := by
  refine ⟨?_, ?_, ?_⟩
  · intro p0 p1 v hsplit hat hge hlt
    rw [convert_mx_branch zone w h]
    simp only [hsplit, hat]
    have hu : toUint16 v = v.toNat := by
      unfold toUint16
      rw [Int.emod_eq_of_lt hge hlt]
    rw [hu]
  · intro p0 p1 e hsplit hat
    rw [convert_mx_branch zone w h]
    simp only [hsplit, hat]
  · intro hsplit
    rw [convert_mx_branch zone w h]
    simp only [hsplit]

theorem mx_decode_splits_first_space_witness :
    (convertToLibdnsRecord ("example.com.".toList)
        ⟨7, "mx".toList, "www".toList, "10 mail.example.com".toList, 300⟩ =
      Record.mx ⟨"www".toList, 300 * nsPerSec, 10, "mail.example.com".toList,
        attachId 7⟩) ∧
    (convertToLibdnsRecord ("example.com.".toList)
        ⟨7, "MX".toList, "www".toList, "not-a-number host".toList, 300⟩ =
      Record.rr ⟨"www".toList, 300 * nsPerSec, "MX".toList,
        "not-a-number host".toList⟩) ∧
    (convertToLibdnsRecord ("example.com.".toList)
        ⟨7, "MX".toList, "www".toList, "nospace".toList, 300⟩ =
      Record.rr ⟨"www".toList, 300 * nsPerSec, "MX".toList, "nospace".toList⟩) := by
  refine ⟨?_, ?_, ?_⟩
  · exact (mx_decode_splits_first_space ("example.com.".toList)
      ⟨7, "mx".toList, "www".toList, "10 mail.example.com".toList, 300⟩
      (by decide)).1
      ("10".toList) ("mail.example.com".toList) 10 rfl rfl (by decide) (by decide)
  · exact (mx_decode_splits_first_space ("example.com.".toList)
      ⟨7, "MX".toList, "www".toList, "not-a-number host".toList, 300⟩
      (by decide)).2.1
      ("not-a-number".toList) ("host".toList) _ rfl rfl
  · exact (mx_decode_splits_first_space ("example.com.".toList)
      ⟨7, "MX".toList, "www".toList, "nospace".toList, 300⟩
      (by decide)).2.2 rfl

/-- Claim C4: decoding a wire record of type SRV (case-insensitive)
yields a Service record exactly when the target splits on whitespace
into exactly four fields with the first three parsing as integers.
When it does, the zone-relative name is handled as follows: a name not
starting with an underscore is kept whole with empty service and
transport; a name starting with an underscore is split into at most
three dot-separated parts, the first two minus their leading underscore
becoming service and transport and the remainder (or the empty string)
the residual name, while an underscore name without any dot stays
whole.  A malformed target degrades to the generic fallback. -/
theorem srv_decode_fields_and_name_split (zone : GoStr) (w : DomainRecord)
    (h : upperStr w.type = "SRV".toList) :
    (∀ p0 p1 p2 p3 v0 v1 v2, goFields w.target = [p0, p1, p2, p3] →
      atoi p0 = Except.ok v0 → atoi p1 = Except.ok v1 → atoi p2 = Except.ok v2 →
      (goHasPre (relativeName w.name zone) ['_'] = false →
        convertToLibdnsRecord zone w =
          Record.srv ⟨[], [], relativeName w.name zone, w.ttlSec * nsPerSec,
            toUint16 v0, toUint16 v1, toUint16 v2, p3, attachId w.id⟩) ∧
      (∀ n0 n1 rest, goHasPre (relativeName w.name zone) ['_'] = true →
        relativeName w.name zone = n0 ++ ('.' :: (n1 ++ ('.' :: rest))) →
        (∀ c ∈ n0, c ≠ '.') → (∀ c ∈ n1, c ≠ '.') →
        convertToLibdnsRecord zone w =
          Record.srv ⟨goTrimPre n0 ['_'], goTrimPre n1 ['_'], rest,
            w.ttlSec * nsPerSec, toUint16 v0, toUint16 v1, toUint16 v2, p3,
            attachId w.id⟩) ∧
      (∀ n0 n1, goHasPre (relativeName w.name zone) ['_'] = true →
        relativeName w.name zone = n0 ++ ('.' :: n1) →
        (∀ c ∈ n0, c ≠ '.') → (∀ c ∈ n1, c ≠ '.') →
        convertToLibdnsRecord zone w =
          Record.srv ⟨goTrimPre n0 ['_'], goTrimPre n1 ['_'], [],
            w.ttlSec * nsPerSec, toUint16 v0, toUint16 v1, toUint16 v2, p3,
            attachId w.id⟩) ∧
      (goHasPre (relativeName w.name zone) ['_'] = true →
        (∀ c ∈ relativeName w.name zone, c ≠ '.') →
        convertToLibdnsRecord zone w =
          Record.srv ⟨[], [], relativeName w.name zone, w.ttlSec * nsPerSec,
            toUint16 v0, toUint16 v1, toUint16 v2, p3, attachId w.id⟩)) ∧
    ((goFields w.target).length ≠ 4 →
      convertToLibdnsRecord zone w =
        Record.rr ⟨relativeName w.name zone, w.ttlSec * nsPerSec, w.type, w.target⟩) ∧
    (∀ p0 p1 p2 p3, goFields w.target = [p0, p1, p2, p3] →
      ¬(∃ v0 v1 v2, atoi p0 = Except.ok v0 ∧ atoi p1 = Except.ok v1 ∧
        atoi p2 = Except.ok v2) →
      convertToLibdnsRecord zone w =
        Record.rr ⟨relativeName w.name zone, w.ttlSec * nsPerSec, w.type, w.target⟩) := by
  refine ⟨?_, ?_, ?_⟩
  · intro p0 p1 p2 p3 v0 v1 v2 hf ha0 ha1 ha2
    refine ⟨?_, ?_, ?_, ?_⟩
    · intro hu
      rw [convert_srv_branch zone w h]
      simp only [hf, ha0, ha1, ha2]
      rw [srvNameSplit_no_underscore _ hu]
    · intro n0 n1 rest hu hsh h0 h1
      rw [convert_srv_branch zone w h]
      simp only [hf, ha0, ha1, ha2]
      rw [srvNameSplit_three _ n0 n1 rest hu hsh h0 h1]
    · intro n0 n1 hu hsh h0 h1
      rw [convert_srv_branch zone w h]
      simp only [hf, ha0, ha1, ha2]
      rw [srvNameSplit_two _ n0 n1 hu hsh h0 h1]
    · intro hu hd
      rw [convert_srv_branch zone w h]
      simp only [hf, ha0, ha1, ha2]
      rw [srvNameSplit_one _ hu hd]
  · intro hlen
    rw [convert_srv_branch zone w h]
    cases hgf : goFields w.target with
    | nil => rfl
    | cons p0 t0 =>
      cases ht0 : t0 with
      | nil => rfl
      | cons p1 t1 =>
        cases ht1 : t1 with
        | nil => rfl
        | cons p2 t2 =>
          cases ht2 : t2 with
          | nil => rfl
          | cons p3 t3 =>
            cases ht3 : t3 with
            | nil =>
              exfalso
              apply hlen
              rw [hgf, ht0, ht1, ht2, ht3]
              rfl
            | cons p4 t4 => rfl
  · intro p0 p1 p2 p3 hf hno
    rw [convert_srv_branch zone w h]
    simp only [hf]
    rcases ha0 : atoi p0 with e0 | v0 <;> rcases ha1 : atoi p1 with e1 | v1 <;>
      rcases ha2 : atoi p2 with e2 | v2 <;>
      first
        | rfl
        | exact absurd ⟨v0, v1, v2, ha0, ha1, ha2⟩ hno

theorem srv_decode_fields_and_name_split_witness :
    convertToLibdnsRecord ("example.com.".toList)
        ⟨9, "srv".toList, "_sip._tcp.host.example.com.".toList,
          "10 20 5060 sip.example.com".toList, 120⟩ =
      Record.srv ⟨"sip".toList, "tcp".toList, "host".toList, 120 * nsPerSec,
        10, 20, 5060, "sip.example.com".toList, attachId 9⟩ := by
  exact ((srv_decode_fields_and_name_split ("example.com.".toList)
      ⟨9, "srv".toList, "_sip._tcp.host.example.com.".toList,
        "10 20 5060 sip.example.com".toList, 120⟩
      (by decide)).1 ("10".toList) ("20".toList) ("5060".toList)
      ("sip.example.com".toList) 10 20 5060 rfl rfl rfl rfl).2.1
    ("_sip".toList) ("_tcp".toList) ("host".toList) (by decide) (by decide)
    (by decide) (by decide)

/-- Claim C1: for every supported record kind (Address, Text, Alias,
MailExchange, Service, Nameserver, CertAuthzAuth) and every normalized
record whose name and data are already in the documented canonical
format, decoding the wire record produced by encoding the record (the
generic RR fields, the name rendered zone-relative, the TTL in whole
seconds) reproduces its semantic fields, with the provider data bag set
to the assigned wire ID; the SRV name-splitting asymmetry is reflected
in the canonical-format precondition, which fixes the shape the
decode-only split leaves behind. -/
theorem encode_decode_round_trip (zone : GoStr) (R : Record) (id : Nat)
    (h : canonicalFormat zone R = true) :
    convertToLibdnsRecord zone (mkWire id (encodeOpts zone R)) =
      withProviderId id R := by
  cases R with
  | address a =>
    simp only [canonicalFormat, Bool.and_eq_true, decide_eq_true_eq] at h
    obtain ⟨⟨hname, httl⟩, hip⟩ := h
    have hdisp : upperStr ((mkWire id (encodeOpts zone (Record.address a))).type) =
        "A".toList ∨
        upperStr ((mkWire id (encodeOpts zone (Record.address a))).type) =
        "AAAA".toList := by
      by_cases hv : a.ip.isV4 = true
      · left
        show upperStr (if a.ip.isV4 then "A".toList else "AAAA".toList) = "A".toList
        rw [if_pos hv]
        decide
      · right
        show upperStr (if a.ip.isV4 then "A".toList else "AAAA".toList) = "AAAA".toList
        rw [if_neg hv]
        decide
    rw [convert_addr_branch zone _ hdisp]
    simp only [mkWire, encodeOpts, Record.RR]
    simp only [parseAddr_renderIP a.ip hip]
    rw [hname, hname, Nat.div_mul_cancel (Nat.dvd_of_mod_eq_zero httl)]
    rfl
  | txt t =>
    simp only [canonicalFormat, Bool.and_eq_true, decide_eq_true_eq] at h
    obtain ⟨hname, httl⟩ := h
    rw [convert_txt_branch zone (mkWire id (encodeOpts zone (Record.txt t))) rfl]
    simp only [mkWire, encodeOpts, Record.RR]
    rw [hname, hname, Nat.div_mul_cancel (Nat.dvd_of_mod_eq_zero httl)]
    rfl
  | cname c =>
    simp only [canonicalFormat, Bool.and_eq_true, decide_eq_true_eq] at h
    obtain ⟨hname, httl⟩ := h
    rw [convert_cname_branch zone (mkWire id (encodeOpts zone (Record.cname c))) rfl]
    simp only [mkWire, encodeOpts, Record.RR]
    rw [hname, hname, Nat.div_mul_cancel (Nat.dvd_of_mod_eq_zero httl)]
    rfl
  | mx m =>
    simp only [canonicalFormat, Bool.and_eq_true, decide_eq_true_eq] at h
    obtain ⟨⟨hname, httl⟩, hpref⟩ := h
    rw [convert_mx_branch zone (mkWire id (encodeOpts zone (Record.mx m))) rfl]
    simp only [mkWire, encodeOpts, Record.RR,
      goSplitN_two ' ' (natToStr m.preference) m.target
        (mem_natToStr_ne m.preference ' ' (by decide)),
      atoi_natToStr m.preference (by omega), toUint16_coe m.preference hpref]
    rw [hname, hname, Nat.div_mul_cancel (Nat.dvd_of_mod_eq_zero httl)]
    rfl
  | srv s =>
    obtain ⟨svc, tr, nm, sttl, pri, wt, pt, tgt, pd⟩ := s
    simp only [canonicalFormat, Bool.and_eq_true, decide_eq_true_eq,
      Bool.not_eq_true', List.all_eq_true] at h
    obtain ⟨⟨⟨⟨⟨⟨⟨⟨⟨hname, httl⟩, hpri⟩, hwt⟩, hport⟩, hsvc⟩, htr⟩, hunder⟩,
      hnotempty⟩, hall⟩ := h
    subst hsvc
    subst htr
    have hallf : ∀ c ∈ tgt, isGoSpace c = false := by
      intro c hc
      have := hall c hc
      revert this
      cases isGoSpace c <;> simp
    have htne : tgt ≠ [] := by
      intro hnil
      rw [hnil] at hnotempty
      simp at hnotempty
    have hf : goFields (natToStr pri ++ (' ' :: (natToStr wt ++
        (' ' :: (natToStr pt ++ (' ' :: tgt)))))) =
        [natToStr pri, natToStr wt, natToStr pt, tgt] := by
      rw [goFields_cons_word _ _ (natToStr_no_space pri)
          (renderNat_ne_nil 10 pri),
        goFields_cons_word _ _ (natToStr_no_space wt)
          (renderNat_ne_nil 10 wt),
        goFields_cons_word _ _ (natToStr_no_space pt)
          (renderNat_ne_nil 10 pt),
        goFields_word tgt hallf htne]
    rw [convert_srv_branch zone (mkWire id (encodeOpts zone
      (Record.srv ⟨[], [], nm, sttl, pri, wt, pt, tgt, pd⟩))) rfl]
    simp only [mkWire, encodeOpts, Record.RR, hf,
      atoi_natToStr pri (by omega), atoi_natToStr wt (by omega),
      atoi_natToStr pt (by omega), toUint16_coe pri hpri,
      toUint16_coe wt hwt, toUint16_coe pt hport]
    rw [hname, hname, srvNameSplit_no_underscore nm hunder,
      Nat.div_mul_cancel (Nat.dvd_of_mod_eq_zero httl)]
    rfl
  | ns n =>
    simp only [canonicalFormat, Bool.and_eq_true, decide_eq_true_eq] at h
    obtain ⟨hname, httl⟩ := h
    rw [convert_ns_branch zone (mkWire id (encodeOpts zone (Record.ns n))) rfl]
    simp only [mkWire, encodeOpts, Record.RR]
    rw [hname, hname, Nat.div_mul_cancel (Nat.dvd_of_mod_eq_zero httl)]
    rfl
  | caa c =>
    simp only [canonicalFormat, Bool.and_eq_true, decide_eq_true_eq,
      Bool.not_eq_true', List.all_eq_true, decide_eq_false_iff_not] at h
    obtain ⟨⟨⟨hname, httl⟩, hflags⟩, htag⟩ := h
    rw [convert_caa_branch zone (mkWire id (encodeOpts zone (Record.caa c))) rfl]
    simp only [mkWire, encodeOpts, Record.RR,
      goSplitN_three ' ' (natToStr c.flags) c.tag c.value
        (mem_natToStr_ne c.flags ' ' (by decide)) htag,
      atoi_natToStr c.flags (by omega), toUint8_coe c.flags hflags]
    rw [hname, hname, Nat.div_mul_cancel (Nat.dvd_of_mod_eq_zero httl)]
    rfl
  | rr r =>
    simp [canonicalFormat] at h

theorem encode_decode_round_trip_witness :
    convertToLibdnsRecord ("example.com.".toList)
        (mkWire 42 (encodeOpts ("example.com.".toList)
          (Record.mx ⟨"mail".toList, 300 * nsPerSec, 10,
            "mx1.example.com".toList, none⟩))) =
      withProviderId 42
        (Record.mx ⟨"mail".toList, 300 * nsPerSec, 10,
          "mx1.example.com".toList, none⟩) := by
  exact encode_decode_round_trip ("example.com.".toList)
    (Record.mx ⟨"mail".toList, 300 * nsPerSec, 10, "mx1.example.com".toList, none⟩)
    42 (by decide)
